import Mathlib

/-!
Verification of the recursive copy engine in `copy.go` (package `copy`).

The Go source is shallowly embedded: every engine function becomes a Lean
function over an explicit model of its inputs, returning the Go error value
(`Option GoErr`, `none` = nil) paired with the chronological list of
filesystem effects (`List Ev`) it performs.  The outcomes of the external
collaborators (OS calls, the injected filesystem, the platform-specific
preservation helpers) are supplied up front in an environment record
(`EntryEnv`), so the engine's control flow over those outcomes is modelled
exactly while the collaborators themselves stay opaque, as the spec's scope
section prescribes.
-/

/-- A Go `error` value.  `notExist` models `os.IsNotExist err = true`. -/
structure GoErr where
  notExist : Bool := false
  msg : String := ""
deriving DecidableEq, Repr

/-- Outcome of `os.Stat` on a destination directory: success, a
not-exists error, or some other error. -/
inductive StatRes where
  | ok
  | notExists
  | err (e : GoErr)
deriving DecidableEq, Repr

/-- The slice of `os.FileInfo` the engine inspects: the entry name and the
mode bits tested by `switchboard` (`ModeDevice`, `ModeSymlink`, `IsDir`,
`ModeNamedPipe`). -/
structure FileInfo where
  name : String := ""
  device : Bool := false
  symlink : Bool := false
  dir : Bool := false
  pipe : Bool := false
deriving DecidableEq, Repr

/-- `SymlinkAction` from the options: Shallow / Deep / Skip. -/
inductive SymlinkAction where
  | Shallow
  | Deep
  | Skip
deriving DecidableEq, Repr

/-- `DirExistsAction` from the options: Merge / Replace / Untouchable.
`Merge` doubles as the "anything else" default of the Go switch. -/
inductive DirExistsAction where
  | Merge
  | Replace
  | Untouchable
deriving DecidableEq, Repr

/-- The finalize action returned by the permission-control hook:
`chmodfunc` receives the current error by pointer (`chmodfunc(&err)`), so it
is modelled as a transformer of the current Go error value.  The `chmod`
side effect of applying it is recorded as an event at the call site. -/
abbrev ChmodFn := Option GoErr → Option GoErr

/-- Filesystem effects, in the order the engine performs them. -/
inductive Ev where
  | statSrc (src : String)
  | openSrc (src : String)
  | closeSrc (src : String)
  | closeDest (dest : String)
  | mkdirAll (dir : String)
  | create (path : String)
  | permCtl (path : String)
  | chmod (path : String)
  | wrapReader
  | write (path : String)
  | sync (path : String)
  | presOwner (path : String)
  | presTimes (path : String)
  | presLtimes (path : String)
  | statDest (path : String)
  | removeAll (path : String)
  | readDir (dir : String)
  | readlink (src : String)
  | lstatTarget (path : String)
  | mkSymlink (target dest : String)
  | mkfifo (dest : String)
  | skipHook (src : String)
  | onErrHook (src dest : String)
deriving DecidableEq, Repr

/-- Pre-supplied outcomes of every external call an entry's handlers can
make.  `none` means the call succeeds (nil error).  Fields are grouped by
the handler that consumes them; an entry of a given type only ever reads
the fields of its own handler. -/
structure EntryEnv where
  /-- `opt.FS.Open(src)` / `os.Open(src)` in `fcopy`. -/
  openErr : Option GoErr := none
  /-- `os.MkdirAll(filepath.Dir(dest), os.ModePerm)` in `fcopy`. -/
  mkdirErr : Option GoErr := none
  /-- `os.Create(dest)` in `fcopy`. -/
  createErr : Option GoErr := none
  /-- `io.CopyBuffer(w, r, buf)` in `fcopy`. -/
  copyErr : Option GoErr := none
  /-- `f.Sync()` in `fcopy`. -/
  syncErr : Option GoErr := none
  /-- `preserveOwner` (platform collaborator) in `fcopy` / `dcopy`. -/
  ownerErr : Option GoErr := none
  /-- `preserveTimes` (platform collaborator) in `fcopy` / `dcopy`. -/
  timesErr : Option GoErr := none
  /-- `readcloser.Close()` in `fcopy`. -/
  closeSrcErr : Option GoErr := none
  /-- `f.Close()` in `fcopy`. -/
  closeDestErr : Option GoErr := none
  /-- `os.Stat(destdir)` in `onDirExists`. -/
  destStat : StatRes := StatRes.notExists
  /-- `os.RemoveAll(destdir)` in `onDirExists`. -/
  removeAllErr : Option GoErr := none
  /-- `fs.ReadDir` / `ioutil.ReadDir` on this directory in `dcopy`. -/
  readDirErr : Option GoErr := none
  /-- `e.Info()` for this entry when its parent lists via the injected FS. -/
  infoErr : Option GoErr := none
  /-- `os.Readlink(src)` in `lcopy` / `onsymlink`. -/
  readlinkErr : Option GoErr := none
  /-- The string returned by `os.Readlink(src)`. -/
  linkDest : String := ""
  /-- `os.Lstat(orig)` on the link target in `onsymlink` (Deep). -/
  targetStatErr : Option GoErr := none
  /-- `os.Symlink(src, dest)` in `lcopy`. -/
  symlinkErr : Option GoErr := none
  /-- `preserveLtimes` (platform collaborator) in `onsymlink` (Shallow). -/
  ltimesErr : Option GoErr := none
  /-- The pipe-replicating syscall in `pcopy` (platform collaborator). -/
  pipeErr : Option GoErr := none
deriving DecidableEq, Repr

/-- A source-tree entry: its metadata snapshot, the outcomes of the
external calls its handlers will make, its directory children (used when
the metadata says directory), and, for a symlink copied in Deep mode, the
resolved target entry. -/
inductive Node where
  | node (info : FileInfo) (env : EntryEnv) (children : List Node)
      (target : Option Node)

def Node.info : Node → FileInfo
  | .node i _ _ _ => i

def Node.env : Node → EntryEnv
  | .node _ e _ _ => e

def Node.children : Node → List Node
  | .node _ _ cs _ => cs

def Node.target : Node → Option Node
  | .node _ _ _ t => t

/-- The configuration (`Options`).  Construction and defaulting
(`assureOptions`, in a file outside src/copy.go) are out of scope per the
spec; hooks the engine nil-checks are `Option`-valued, hooks it calls
unconditionally are total functions whose defaults stand in for the
configuration defaulting.  `FS` records whether an injected source-side
filesystem is configured.  `intentDest` models `opt.intent.dest`, the
original top-level destination recorded by the copy intent. -/
structure Options where
  Specials : Bool := false
  NumOfWorkers : Nat := 0
  FS : Bool := false
  Sync : Bool := false
  PreserveTimes : Bool := false
  PreserveOwner : Bool := false
  CopyBufferSize : Nat := 0
  WrapReader : Bool := false
  Skip : Option (FileInfo → String → String → Bool × Option GoErr) := none
  OnSymlink : String → SymlinkAction := fun _ => SymlinkAction.Shallow
  OnDirExists : Option (String → String → DirExistsAction) := none
  OnError : Option (String → String → Option GoErr → Option GoErr) := none
  PermissionControl : FileInfo → String → Except GoErr ChmodFn :=
    fun _ _ => Except.ok (fun e => e)
  intentDest : String := ""

/-- Result of a modelled engine call: the Go error value and the effects
performed, in order. -/
abbrev Res := Option GoErr × List Ev

/-- `filepath.Dir`, modelled for slash-separated paths: everything before
the last `/`, or `.` when there is none (Go's path cleaning of other edge
cases is irrelevant to the paths the development uses). -/
def dirname (p : String) : String :=
  let cs := p.toList
  if cs.contains '/' then
    String.mk (((cs.reverse.dropWhile (fun c => c ≠ '/')).drop 1).reverse)
  else "."

/-- `filepath.Join` for the simple two-segment joins the engine performs. -/
def pjoin (a b : String) : String := a ++ "/" ++ b

/-- `fclose` (lines 360-366): close the handle, but let an already
reported error win over the close error. -/
def fclose (closeErr reported : Option GoErr) : Option GoErr :=
  match reported with
  | none => closeErr
  | some e => some e

/-- `onError` (lines 370-376): with no hook the error propagates verbatim;
otherwise the hook decides.  A hook invocation is recorded as an event. -/
def onError (src dest : String) (e : Option GoErr) (opt : Options) :
    Option GoErr × List Ev :=
  match opt.OnError with
  | none => (e, [])
  | some f => (f src dest e, [Ev.onErrHook src dest])

/-- `onDirExists` (lines 300-315).  Returns (skip, error) as in Go,
together with the effects (the stat, and the `RemoveAll` on Replace). -/
def onDirExists (opt : Options) (srcdir destdir : String) (env : EntryEnv) :
    (Bool × Option GoErr) × List Ev :=
  match env.destStat with
  | StatRes.ok =>
    match opt.OnDirExists with
    | some hook =>
      if destdir ≠ opt.intentDest then
        match hook srcdir destdir with
        | DirExistsAction.Replace =>
          match env.removeAllErr with
          | some e => ((false, some e), [Ev.statDest destdir, Ev.removeAll destdir])
          | none => ((false, none), [Ev.statDest destdir, Ev.removeAll destdir])
        | DirExistsAction.Untouchable => ((true, none), [Ev.statDest destdir])
        | DirExistsAction.Merge => ((false, none), [Ev.statDest destdir])
      else ((false, none), [Ev.statDest destdir])
    | none => ((false, none), [Ev.statDest destdir])
  | StatRes.notExists => ((false, none), [Ev.statDest destdir])
  | StatRes.err e => ((true, some e), [Ev.statDest destdir])

/-- `lcopy` (lines 346-355): read the link target; a not-exists failure is
a benign no-op, any other failure propagates; otherwise recreate the
symlink at the destination. -/
def lcopy (src dest : String) (env : EntryEnv) : Res :=
  match env.readlinkErr with
  | some e =>
    if e.notExist then (none, [Ev.readlink src])
    else (some e, [Ev.readlink src])
  | none => (env.symlinkErr, [Ev.readlink src, Ev.mkSymlink env.linkDest dest])

/-- Modelled from the spec: `pcopy` (the Pipe Replicator, §4.6) lives in a
platform file absent from src/; it recreates a named pipe node at the
destination with equivalent permission bits and no content. -/
def pcopy (dest : String) (env : EntryEnv) : Res :=
  (env.pipeErr, [Ev.mkfifo dest])

/-- Modelled from the spec: `shouldCopyDirectoryConcurrent` is defined
outside src/copy.go; per §5, Concurrent mode is selected exactly when the
configured worker count exceeds 1 (the error component is always nil: the
spec describes no failure for mode selection). -/
def shouldCopyDirectoryConcurrent (opt : Options) (_srcdir _destdir : String) :
    Bool × Option GoErr :=
  (opt.NumOfWorkers > 1, none)

/-- First `e.Info()` failure in a directory listing obtained through the
injected filesystem (the loop at lines 217-223). -/
def firstInfoErr : List Node → Option GoErr
  | [] => none
  | c :: cs =>
    match c.env.infoErr with
    | some e => some e
    | none => firstInfoErr cs

/-- `fcopy` (lines 98-187), the single-file copier.  The two deferred
`fclose` calls run LIFO on every exit past their registration points;
`closeSrcFin` and `closeBoth` apply them.  Note the source's order:
`chmodfunc(&err)` is applied right after a successful permission-control
call (line 147), before `io.CopyBuffer`; its write to `err` is then
overwritten by the `io.CopyBuffer` assignment, which the model mirrors by
discarding the transformed value. -/
def fcopy (src dest : String) (info : FileInfo) (env : EntryEnv)
    (opt : Options) : Res :=
  match env.openErr with
  | some e =>
    if e.notExist then (none, [Ev.openSrc src])
    else (some e, [Ev.openSrc src])
  | none =>
    let closeSrcFin : Option GoErr → List Ev → Res := fun e evs =>
      (fclose env.closeSrcErr e, evs ++ [Ev.closeSrc src])
    match env.mkdirErr with
    | some e => closeSrcFin (some e) [Ev.openSrc src, Ev.mkdirAll (dirname dest)]
    | none =>
      match env.createErr with
      | some e =>
        closeSrcFin (some e)
          [Ev.openSrc src, Ev.mkdirAll (dirname dest), Ev.create dest]
      | none =>
        let closeBoth : Option GoErr → List Ev → Res := fun e evs =>
          closeSrcFin (fclose env.closeDestErr e) (evs ++ [Ev.closeDest dest])
        let evs0 := [Ev.openSrc src, Ev.mkdirAll (dirname dest), Ev.create dest]
        match opt.PermissionControl info dest with
        | Except.error e => closeBoth (some e) (evs0 ++ [Ev.permCtl dest])
        | Except.ok chmodfn =>
          -- chmodfunc(&err): err is nil here, and the value chmodfn leaves
          -- in err is overwritten by the `_, err = io.CopyBuffer` assignment
          let _errAfterChmod := chmodfn none
          let evs1 := evs0 ++ [Ev.permCtl dest, Ev.chmod dest]
          let evs2 := evs1 ++ (if opt.WrapReader then [Ev.wrapReader] else [])
              ++ [Ev.write dest]
          match env.copyErr with
          | some e => closeBoth (some e) evs2
          | none =>
            -- if opt.Sync { err = f.Sync() }  -- assigns err, no early return
            let eSync := if opt.Sync then env.syncErr else none
            let evs3 := evs2 ++ (if opt.Sync then [Ev.sync dest] else [])
            match (if opt.PreserveOwner then env.ownerErr else none) with
            | some e => closeBoth (some e) (evs3 ++ [Ev.presOwner dest])
            | none =>
              let evs4 := evs3 ++
                (if opt.PreserveOwner then [Ev.presOwner dest] else [])
              match (if opt.PreserveTimes then env.timesErr else none) with
              | some e => closeBoth (some e) (evs4 ++ [Ev.presTimes dest])
              | none =>
                closeBoth eSync (evs4 ++
                  (if opt.PreserveTimes then [Ev.presTimes dest] else []))

/-! The re-entrant core: `switchboard`, `copyNextOrSkip`, `onsymlink`,
`dcopy` and the two child-processing loops are mutually recursive over the
source tree. -/

mutual

/-- `switchboard` (lines 57-77): reject device-special entries when
specials are not enabled (note: the named return `err` is still nil there,
so `onError` receives nil); otherwise dispatch on the mode bits with
precedence symlink > directory > named pipe > regular file, and route the
handler's result through `onError`. -/
def switchboard (src dest : String) (n : Node) (opt : Options) : Res :=
  if n.info.device ∧ ¬ opt.Specials then
    onError src dest none opt
  else
    let r : Res :=
      if n.info.symlink then onsymlink src dest n opt
      else if n.info.dir then dcopy src dest n opt
      else if n.info.pipe then pcopy dest n.env
      else fcopy src dest n.info n.env opt
    let h := onError src dest r.1 opt
    (h.1, r.2 ++ h.2)
termination_by (sizeOf n, 2)

/-- `copyNextOrSkip` (lines 82-93): consult the skip hook when configured;
a hook failure propagates, a skip returns nil with nothing done, otherwise
dispatch through `switchboard`. -/
def copyNextOrSkip (src dest : String) (n : Node) (opt : Options) : Res :=
  match opt.Skip with
  | some f =>
    match f n.info src dest with
    | (_, some e) => (some e, [Ev.skipHook src])
    | (true, none) => (none, [Ev.skipHook src])
    | (false, none) =>
      let r := switchboard src dest n opt
      (r.1, Ev.skipHook src :: r.2)
  | none => switchboard src dest n opt
termination_by (sizeOf n, 3)

/-- `onsymlink` (lines 317-342): `switch opt.OnSymlink(src)`, dispatched
per action by `onsymlinkAct`. -/
def onsymlink (src dest : String) (n : Node) (opt : Options) : Res :=
  onsymlinkAct (opt.OnSymlink src) src dest n opt
termination_by (sizeOf n, 1)

/-- The arms of the `onsymlink` switch.  Shallow: `lcopy`, then optionally
preserve the link's own times.  Deep: read the link, `Lstat` the target and
re-enter the engine on it (no not-exists leniency on this path).  Skip and
any unrecognized mode: no-op. -/
def onsymlinkAct (act : SymlinkAction) (src dest : String) (n : Node)
    (opt : Options) : Res :=
  match act with
  | SymlinkAction.Shallow =>
    let r := lcopy src dest n.env
    match r.1 with
    | some e => (some e, r.2)
    | none =>
      if opt.PreserveTimes then (n.env.ltimesErr, r.2 ++ [Ev.presLtimes dest])
      else (none, r.2)
  | SymlinkAction.Deep =>
    match n with
    | Node.node _ env _ target =>
      match env.readlinkErr with
      | some e => (some e, [Ev.readlink src])
      | none =>
        match env.targetStatErr with
        | some e => (some e, [Ev.readlink src, Ev.lstatTarget env.linkDest])
        | none =>
          match target with
          | some tgt =>
            let r := copyNextOrSkip env.linkDest dest tgt opt
            (r.1, Ev.readlink src :: Ev.lstatTarget env.linkDest :: r.2)
          | none =>
            -- unreachable for well-formed models: a successful Lstat of
            -- the link target implies a target entry is present
            (none, [Ev.readlink src, Ev.lstatTarget env.linkDest])
  | SymlinkAction.Skip => (none, [])
termination_by (sizeOf n, 0)

/-- `dcopy` (lines 192-201): resolve a destination-exists conflict via
`onDirExists`; an error returns at once (before the permission-control
defer is registered), a skip returns nil, otherwise the body runs. -/
def dcopy (srcdir destdir : String) (n : Node) (opt : Options) : Res :=
  match n with
  | Node.node info env children _ =>
    match onDirExists opt srcdir destdir env with
    | ((_, some e), evs) => (some e, evs)
    | ((true, none), evs) => (none, evs)
    | ((false, none), evs) =>
      let r := dcopyBody srcdir destdir info env children opt
      (r.1, evs ++ r.2)
termination_by (sizeOf n, 1)

/-- The remainder of `dcopy` (lines 203-260): permission control with the
deferred `chmodfunc(&err)` (`finish` applies it on every exit), the
directory listing - via the injected FS (where a listing failure returns at
once, with no not-exists check) or via `ioutil.ReadDir` (where a not-exists
failure is a benign no-op) - then the sequential or concurrent child loop,
then times/owner preservation. -/
def dcopyBody (srcdir destdir : String) (info : FileInfo) (env : EntryEnv)
    (children : List Node) (opt : Options) : Res :=
  match opt.PermissionControl info destdir with
  | Except.error e => (some e, [Ev.permCtl destdir])
  | Except.ok chmodfn =>
    let finish : Option GoErr → List Ev → Res := fun e l =>
      (chmodfn e, Ev.permCtl destdir :: l ++ [Ev.chmod destdir])
    if opt.FS then
      match env.readDirErr with
      | some e => finish (some e) [Ev.readDir srcdir]
      | none =>
        match firstInfoErr children with
        | some e => finish (some e) [Ev.readDir srcdir]
        | none => dcopyChildren srcdir destdir env children opt finish
    else
      match env.readDirErr with
      | some e =>
        if e.notExist then finish none [Ev.readDir srcdir]
        else finish (some e) [Ev.readDir srcdir]
      | none => dcopyChildren srcdir destdir env children opt finish
termination_by (sizeOf children, 5)

/-- Lines 235-260 of `dcopy`: pick the mode, run the child loop, then
apply `preserveTimes` and `preserveOwner` to the directory itself, and let
the deferred `chmodfunc` (`finish`) see the final error. -/
def dcopyChildren (srcdir destdir : String) (env : EntryEnv)
    (children : List Node) (opt : Options)
    (finish : Option GoErr → List Ev → Res) : Res :=
  match (shouldCopyDirectoryConcurrent opt srcdir destdir).2 with
  | some e => finish (some e) [Ev.readDir srcdir]
  | none =>
    let rbody : Res :=
      if (shouldCopyDirectoryConcurrent opt srcdir destdir).1 then
        dcopyConcurrentModel srcdir destdir children opt
      else
        dcopySequential srcdir destdir children opt
    match rbody.1 with
    | some e => finish (some e) (Ev.readDir srcdir :: rbody.2)
    | none =>
      match (if opt.PreserveTimes then env.timesErr else none) with
      | some e =>
        finish (some e)
          (Ev.readDir srcdir :: rbody.2 ++ [Ev.presTimes destdir])
      | none =>
        let evs5 := Ev.readDir srcdir :: rbody.2 ++
          (if opt.PreserveTimes then [Ev.presTimes destdir] else [])
        match (if opt.PreserveOwner then env.ownerErr else none) with
        | some e => finish (some e) (evs5 ++ [Ev.presOwner destdir])
        | none =>
          finish none (evs5 ++
            (if opt.PreserveOwner then [Ev.presOwner destdir] else []))
termination_by (sizeOf children, 4)

/-- `dcopySequential` (lines 263-274): children strictly in listing order,
first error exits immediately. -/
def dcopySequential (srcdir destdir : String) (children : List Node)
    (opt : Options) : Res :=
  match children with
  | [] => (none, [])
  | c :: cs =>
    let r := copyNextOrSkip (pjoin srcdir c.info.name)
      (pjoin destdir c.info.name) c opt
    match r.1 with
    | some e => (some e, r.2)
    | none =>
      let rest := dcopySequential srcdir destdir cs opt
      (rest.1, r.2 ++ rest.2)
termination_by (sizeOf children, 0)

/-- `dcopyConcurrent` (lines 277-298), under one serialized schedule: every
child task runs to completion in spawn order (cancellation never fires
before a task's acquire on this schedule) and `group.Wait` returns the
first error.  A directory child recurses with no semaphore interaction; a
non-directory child's acquire/copy/release protocol and the interleaving
semantics of the limiter are modelled separately by `getRoutineTrace` and
the schedule predicates below. -/
def dcopyConcurrentModel (srcdir destdir : String) (children : List Node)
    (opt : Options) : Res :=
  match children with
  | [] => (none, [])
  | c :: cs =>
    let r := copyNextOrSkip (pjoin srcdir c.info.name)
      (pjoin destdir c.info.name) c opt
    let rest := dcopyConcurrentModel srcdir destdir cs opt
    ((match r.1 with | some e => some e | none => rest.1), r.2 ++ rest.2)
termination_by (sizeOf children, 0)

end

/-- `Copy` (lines 23-53): set up the copy intent (the worker semaphore and
context are modelled in the schedule section; `intent.dest` records the
original destination, modelled from the spec since `assureOptions` is
outside src/copy.go), stat the source through the configured filesystem
(`statErr` is that call's outcome), and dispatch - directly through
`switchboard`, not through the skip gate. -/
def Copy (src dest : String) (root : Node) (statErr : Option GoErr)
    (opt0 : Options) : Res :=
  let opt := { opt0 with intentDest := dest }
  match statErr with
  | some e =>
    let h := onError src dest (some e) opt
    (h.1, Ev.statSrc src :: h.2)
  | none =>
    let r := switchboard src dest root opt
    (r.1, Ev.statSrc src :: r.2)

/-! ## Limiter model for the concurrent mode

`dcopyConcurrent` (lines 277-298) spawns one task per child.  A task's
interaction with the shared weighted semaphore and the byte-copy work is
abstracted to an event trace; a run of the whole task group is a schedule,
a list of (task id, event) pairs, and the semaphore's admission guarantee
is the predicate `SemValid`: in no prefix of the schedule do successful
acquires outnumber releases by more than the capacity (`NumOfWorkers`). -/

/-- Semaphore / copy events of one task. -/
inductive SemEv where
  | acq
  | rel
  | cpStart
  | cpEnd
deriving DecidableEq, Repr

/-- The abstract event trace of the byte-copy work (`copyNextOrSkip` on a
non-directory child): the copy starts and ends. -/
def copyWork : List SemEv := [SemEv.cpStart, SemEv.cpEnd]

/-- The trace of one child routine built by `getRoutine` (lines 279-291):
a directory child runs its recursion trace with no semaphore interaction; a
non-directory child acquires one slot, runs the work (error or not), then
releases the slot; a failed acquire (cancelled context) does nothing. -/
def getRoutineTrace (isDir acqOk : Bool) (work : List SemEv) : List SemEv :=
  if isDir then work
  else if acqOk then SemEv.acq :: work ++ [SemEv.rel]
  else []

/-- The full trace of a non-directory child task that gets admitted. -/
def leafTrace : List SemEv := getRoutineTrace false true copyWork

/-- The events of task `t` within a schedule, in order. -/
def proj (t : Nat) (s : List (Nat × SemEv)) : List SemEv :=
  (s.filter (fun x => x.1 == t)).map Prod.snd

/-- How many events `e` a schedule contains. -/
def countEv (e : SemEv) (s : List (Nat × SemEv)) : Nat :=
  s.countP (fun x => decide (x.2 = e))

/-- Every task of the schedule behaves like a `getRoutine` leaf task:
its projection is a (possibly still running) prefix of `leafTrace`. -/
def ProgOrder (s : List (Nat × SemEv)) : Prop :=
  ∀ t, proj t s <+: leafTrace

/-- The admission guarantee of `semaphore.NewWeighted cap`: at no point of
the schedule do acquires outnumber releases by more than `cap`. -/
def SemValid (cap : Nat) (s : List (Nat × SemEv)) : Prop :=
  ∀ k, countEv SemEv.acq (s.take k) ≤ countEv SemEv.rel (s.take k) + cap

/-! ## Concrete fixtures used by the claim theorems -/

/-- A generic hard error (`os.IsNotExist` is false on it). -/
def eIO : GoErr := { msg := "io error" }

/-- A not-exists error (`os.IsNotExist` is true on it). -/
def eNF : GoErr := { notExist := true, msg := "file does not exist" }

/-- A regular file whose external calls all succeed. -/
def plainFile : Node := Node.node { name := "f" } {} [] none

/-- Options with a skip hook that skips everything. -/
def skipAllOpts : Options := { Skip := some (fun _ _ _ => (true, none)) }

/-- Options whose symlink hook always picks Deep mode. -/
def deepOpts : Options := { OnSymlink := fun _ => SymlinkAction.Deep }

/-- A symlink whose target vanished: reading the link fails not-exists. -/
def danglingLink : Node :=
  Node.node { name := "l", symlink := true } { readlinkErr := some eNF } [] none

/-- Options with an injected source-side filesystem. -/
def fsOpts : Options := { FS := true }

/-- A directory whose listing fails with a not-exists error. -/
def listFailDir : Node :=
  Node.node { name := "s", dir := true } { readDirErr := some eNF } [] none

/-- A regular file whose open fails with the given error. -/
def badFile (e : GoErr) : Node :=
  Node.node { name := "f" } { openErr := some e } [] none

/-- A directory containing one file whose open fails with `e`. -/
def dirWithBadChild (e : GoErr) : Node :=
  Node.node { name := "s", dir := true } {} [badFile e] none

/-- Options with an error hook that passes every error through unchanged. -/
def idErrHookOpts : Options := { OnError := some (fun _ _ e => e) }

/-- Options whose permission-control hook fails with `eIO`. -/
def permFailOpts : Options :=
  { PermissionControl := fun _ _ => Except.error eIO }

/-- A device-special entry. -/
def devNode : Node := Node.node { name := "dev0", device := true } {} [] none

/-- A sample serialized schedule: two admitted leaf tasks, one after the
other, under capacity 1. -/
def demoSched : List (Nat × SemEv) :=
  [(0, SemEv.acq), (0, SemEv.cpStart), (0, SemEv.cpEnd), (0, SemEv.rel),
   (1, SemEv.acq), (1, SemEv.cpStart), (1, SemEv.cpEnd), (1, SemEv.rel)]

/-- Options whose conflict hook always answers Untouchable. -/
def untouchOpts : Options :=
  { OnDirExists := some (fun _ _ => DirExistsAction.Untouchable) }

/-- Environment of a directory whose destination already exists. -/
def existsDirEnv : EntryEnv := { destStat := StatRes.ok }

/-- Options with an error hook that suppresses every error. -/
def nilErrHookOpts : Options := { OnError := some (fun _ _ _ => none) }

/-- Options with a skip hook that itself fails with `eIO`. -/
def failSkipOpts : Options := { Skip := some (fun _ _ _ => (false, some eIO)) }

/-! ## Claim theorems -/

/-- Claim C1.  The claim says a device-special entry is rejected with a
non-nil error when `Specials` is off.  In the code the named return `err`
is still nil at line 61, so `onError` receives nil and, with no error hook
configured, the dispatcher returns nil and performs nothing: the code
contradicts the rejection-with-error the spec (and the code's own comment)
intends. -/
theorem c1_device_without_specials_returns_nil (src dest : String) (n : Node)
    (opt : Options) (hdev : n.info.device = true)
    (hsp : opt.Specials = false) (hoe : opt.OnError = none) :
    switchboard src dest n opt = (none, []) := by
  simp [switchboard, onError, hdev, hsp, hoe]

/-- Witness for C1 at a concrete device entry with default options. -/
theorem c1_witness :
    switchboard "dev0" "d" devNode { } = (none, []) :=
  c1_device_without_specials_returns_nil "dev0" "d" devNode { } rfl rfl rfl

/-- Claim C5.  For a directory whose destination exists, with a conflict
hook configured and the destination different from the original top-level
destination: Untouchable reports success with only the stat performed
(nothing copied, subtree untouched); Replace removes the destination
subtree and then proceeds with the directory body; Merge proceeds with the
body directly into the existing directory. -/
theorem c5_dir_conflict_resolution (srcdir destdir : String)
    (info : FileInfo) (env : EntryEnv) (children : List Node) (opt : Options)
    (hook : String → String → DirExistsAction)
    (hde : opt.OnDirExists = some hook) (hne : destdir ≠ opt.intentDest)
    (hst : env.destStat = StatRes.ok) :
    (hook srcdir destdir = DirExistsAction.Untouchable →
      dcopy srcdir destdir (Node.node info env children none) opt =
        (none, [Ev.statDest destdir])) ∧
    (hook srcdir destdir = DirExistsAction.Replace →
      env.removeAllErr = none →
      dcopy srcdir destdir (Node.node info env children none) opt =
        ((dcopyBody srcdir destdir info env children opt).1,
         Ev.statDest destdir :: Ev.removeAll destdir ::
           (dcopyBody srcdir destdir info env children opt).2)) ∧
    (hook srcdir destdir = DirExistsAction.Merge →
      dcopy srcdir destdir (Node.node info env children none) opt =
        ((dcopyBody srcdir destdir info env children opt).1,
         Ev.statDest destdir ::
           (dcopyBody srcdir destdir info env children opt).2)) := by
  refine ⟨fun h => ?_, fun h hra => ?_, fun h => ?_⟩
  · simp [dcopy, onDirExists, hde, hne, hst, h]
  · simp [dcopy, onDirExists, hde, hne, hst, h, hra]
  · simp [dcopy, onDirExists, hde, hne, hst, h]

/-- Witness for C5: an Untouchable answer on an existing destination
returns success having done nothing but the stat. -/
theorem c5_witness :
    dcopy "s" "d" (Node.node { name := "s", dir := true } existsDirEnv [] none)
        untouchOpts = (none, [Ev.statDest "d"]) :=
  (c5_dir_conflict_resolution "s" "d" { name := "s", dir := true }
    existsDirEnv [] untouchOpts (fun _ _ => DirExistsAction.Untouchable)
    rfl (by decide) rfl).1 rfl

/-- Counterexample to claim C6: the same not-found listing failure is a
benign no-op (nil) through the OS filesystem but a hard failure through the
injected filesystem abstraction, because the injected-FS branch returns
before the not-exists check at lines 228-231 is reached. -/
theorem c6_counterexample :
    (dcopy "s" "d" listFailDir fsOpts).1 = some eNF ∧
    (dcopy "s" "d" listFailDir { }).1 = none ∧
    eNF.notExist = true := by
  refine ⟨?_, ?_, rfl⟩ <;>
    simp [dcopy, dcopyBody, onDirExists, listFailDir, fsOpts, eNF]

/-- Claim C6 as amended: through the OS filesystem a not-found listing
failure is a benign no-op and any other failure is hard; through the
injected filesystem abstraction every listing failure, not-found included,
is a hard failure. -/
theorem c6_amended (srcdir destdir : String) (info : FileInfo)
    (env : EntryEnv) (children : List Node) (opt : Options) (e : GoErr)
    (hrd : env.readDirErr = some e)
    (hpc : opt.PermissionControl info destdir = Except.ok (fun x => x)) :
    (opt.FS = true →
      dcopyBody srcdir destdir info env children opt =
        (some e, [Ev.permCtl destdir, Ev.readDir srcdir, Ev.chmod destdir])) ∧
    (opt.FS = false → e.notExist = true →
      dcopyBody srcdir destdir info env children opt =
        (none, [Ev.permCtl destdir, Ev.readDir srcdir, Ev.chmod destdir])) ∧
    (opt.FS = false → e.notExist = false →
      dcopyBody srcdir destdir info env children opt =
        (some e, [Ev.permCtl destdir, Ev.readDir srcdir, Ev.chmod destdir])) := by
  refine ⟨fun h => ?_, fun h h2 => ?_, fun h h2 => ?_⟩
  · simp [dcopyBody, hrd, hpc, h]
  · simp [dcopyBody, hrd, hpc, h, h2]
  · simp [dcopyBody, hrd, hpc, h, h2]

/-- Witness for C6 (amended) covering both filesystem paths. -/
theorem c6_amended_witness :
    dcopyBody "s" "d" { name := "s", dir := true }
        { readDirErr := some eNF } [] fsOpts =
      (some eNF, [Ev.permCtl "d", Ev.readDir "s", Ev.chmod "d"]) ∧
    dcopyBody "s" "d" { name := "s", dir := true }
        { readDirErr := some eNF } [] { } =
      (none, [Ev.permCtl "d", Ev.readDir "s", Ev.chmod "d"]) :=
  ⟨(c6_amended "s" "d" { name := "s", dir := true } { readDirErr := some eNF }
      [] fsOpts eNF rfl rfl).1 rfl,
   (c6_amended "s" "d" { name := "s", dir := true } { readDirErr := some eNF }
      [] { } eNF rfl rfl).2.1 rfl rfl⟩

/-- Counterexample to claim C7: in Deep mode a read-link failure whose
cause is not-exists is returned as an error, not treated as a benign
no-op - only the Shallow path (`lcopy`) has the leniency. -/
theorem c7_counterexample :
    (onsymlink "l" "d" danglingLink deepOpts).1 = some eNF ∧
    eNF.notExist = true := by
  refine ⟨?_, rfl⟩
  simp [onsymlink, onsymlinkAct, deepOpts, danglingLink]

/-- Claim C7 as amended: a vanished link is a benign no-op in Shallow mode
only; in Deep mode the read-link failure propagates as an error. -/
theorem c7_amended (src dest : String) (info : FileInfo) (env : EntryEnv)
    (children : List Node) (target : Option Node) (opt : Options) (e : GoErr)
    (hrl : env.readlinkErr = some e) (hne : e.notExist = true)
    (hpt : opt.PreserveTimes = false) :
    (opt.OnSymlink src = SymlinkAction.Shallow →
      onsymlink src dest (Node.node info env children target) opt =
        (none, [Ev.readlink src])) ∧
    (opt.OnSymlink src = SymlinkAction.Deep →
      onsymlink src dest (Node.node info env children target) opt =
        (some e, [Ev.readlink src])) := by
  refine ⟨fun h => ?_, fun h => ?_⟩ <;> cases target <;>
    simp [onsymlink, onsymlinkAct, h, lcopy, hrl, hne, hpt, Node.env]

/-- Witness for C7 (amended) covering both modes on the dangling link. -/
theorem c7_witness :
    onsymlink "l" "d" danglingLink { } = (none, [Ev.readlink "l"]) ∧
    onsymlink "l" "d" danglingLink deepOpts = (some eNF, [Ev.readlink "l"]) :=
  ⟨(c7_amended "l" "d" { name := "l", symlink := true }
      { readlinkErr := some eNF } [] none { } eNF rfl rfl rfl).1 rfl,
   (c7_amended "l" "d" { name := "l", symlink := true }
      { readlinkErr := some eNF } [] none deepOpts eNF rfl rfl rfl).2 rfl⟩

/-- Claim C8: when opening the source fails with not-exists, the
single-file copier returns nil having performed only the failed open - no
parent directory creation, no destination create or truncate. -/
theorem c8_open_not_exist_is_noop (src dest : String) (info : FileInfo)
    (env : EntryEnv) (opt : Options) (e : GoErr)
    (hopen : env.openErr = some e) (hne : e.notExist = true) :
    fcopy src dest info env opt = (none, [Ev.openSrc src]) := by
  simp [fcopy, hopen, hne]

/-- Witness for C8 at a concrete vanished source. -/
theorem c8_witness :
    fcopy "s" "d/x" { } { openErr := some eNF } { } =
      (none, [Ev.openSrc "s"]) :=
  c8_open_not_exist_is_noop "s" "d/x" { } { openErr := some eNF } { } eNF
    rfl rfl

/-- Claim C10: if the permission-control hook fails in `fcopy`, that error
is returned (the deferred closes respect the first error), but by then the
destination's parent directories were created and the destination file was
created or truncated, and nothing on this path removes them again. -/
theorem c10_perm_error_after_side_effects (src dest : String)
    (info : FileInfo) (env : EntryEnv) (opt : Options) (e : GoErr)
    (h1 : env.openErr = none) (h2 : env.mkdirErr = none)
    (h3 : env.createErr = none)
    (h4 : opt.PermissionControl info dest = Except.error e) :
    fcopy src dest info env opt =
      (some e,
       [Ev.openSrc src, Ev.mkdirAll (dirname dest), Ev.create dest,
        Ev.permCtl dest, Ev.closeDest dest, Ev.closeSrc src]) := by
  simp [fcopy, h1, h2, h3, h4, fclose]

/-- Witness for C10 at a concrete file with a failing permission hook. -/
theorem c10_witness :
    fcopy "s" "d/x" { } { } permFailOpts =
      (some eIO,
       [Ev.openSrc "s", Ev.mkdirAll (dirname "d/x"), Ev.create "d/x",
        Ev.permCtl "d/x", Ev.closeDest "d/x", Ev.closeSrc "s"]) :=
  c10_perm_error_after_side_effects "s" "d/x" { } { } permFailOpts eIO
    rfl rfl rfl rfl

/-- Counterexample to claim C2: with a hook that skips everything, the
top-level source is still copied - `Copy` dispatches straight through
`switchboard`, never consulting the skip hook, and the destination file is
created - contradicting "consulted before any processing of every entry,
the top-level source as well as every directory child" with "no side
effects". -/
theorem c2_counterexample :
    Ev.create "d" ∈ (Copy "s" "d" plainFile none skipAllOpts).2 ∧
    Ev.skipHook "s" ∉ (Copy "s" "d" plainFile none skipAllOpts).2 := by
  simp [Copy, switchboard, fcopy, onError, skipAllOpts, plainFile,
    Node.info, Node.env, dirname]

/-- Claim C2 as amended: the skip hook gates every directory child (every
entry reached through `copyNextOrSkip`): it is consulted before any
processing, and a skip omits the entry and its whole subtree with no
effects and no error while the remaining siblings proceed; the top-level
source, however, is dispatched by `Copy` directly through `switchboard`
without consulting the hook. -/
theorem c2_amended :
    (∀ (src dest : String) (n : Node) (opt : Options)
        (f : FileInfo → String → String → Bool × Option GoErr),
      opt.Skip = some f → f n.info src dest = (true, none) →
      copyNextOrSkip src dest n opt = (none, [Ev.skipHook src])) ∧
    (∀ (srcdir destdir : String) (c : Node) (cs : List Node) (opt : Options)
        (f : FileInfo → String → String → Bool × Option GoErr),
      opt.Skip = some f →
      f c.info (pjoin srcdir c.info.name) (pjoin destdir c.info.name) =
        (true, none) →
      dcopySequential srcdir destdir (c :: cs) opt =
        ((dcopySequential srcdir destdir cs opt).1,
          Ev.skipHook (pjoin srcdir c.info.name) ::
            (dcopySequential srcdir destdir cs opt).2)) ∧
    (∀ (src dest : String) (n : Node) (opt : Options),
      Copy src dest n none opt =
        ((switchboard src dest n { opt with intentDest := dest }).1,
          Ev.statSrc src ::
            (switchboard src dest n { opt with intentDest := dest }).2)) := by
  refine ⟨fun src dest n opt f hs hf => ?_,
    fun srcdir destdir c cs opt f hs hf => ?_, fun src dest n opt => ?_⟩
  · simp [copyNextOrSkip, hs, hf]
  · simp [dcopySequential, copyNextOrSkip, hs, hf]
  · simp [Copy]

/-- Witness for C2 (amended): a skipped child is omitted with only the
hook consultation recorded, and the top-level dispatch goes straight to
`switchboard`. -/
theorem c2_witness :
    copyNextOrSkip "s" "d" plainFile skipAllOpts =
      (none, [Ev.skipHook "s"]) ∧
    dcopySequential "s" "d" [plainFile] skipAllOpts =
      ((dcopySequential "s" "d" [] skipAllOpts).1,
        Ev.skipHook (pjoin "s" "f") ::
          (dcopySequential "s" "d" [] skipAllOpts).2) ∧
    Copy "s" "d" plainFile none skipAllOpts =
      ((switchboard "s" "d" plainFile
          { skipAllOpts with intentDest := "d" }).1,
        Ev.statSrc "s" ::
          (switchboard "s" "d" plainFile
            { skipAllOpts with intentDest := "d" }).2) :=
  ⟨c2_amended.1 "s" "d" plainFile skipAllOpts _ rfl rfl,
   c2_amended.2.1 "s" "d" plainFile [] skipAllOpts _ rfl rfl,
   c2_amended.2.2 "s" "d" plainFile skipAllOpts⟩

/-- Counterexample to claim C3: on a fully successful single-file copy the
finalize action (`chmodfunc`) runs before the content write, not strictly
after it, and on the open-failure exit path it is never applied. -/
theorem c3_counterexample :
    Ev.chmod "d/x" ∈ (fcopy "s" "d/x" { name := "x" } { } { }).2 ∧
    Ev.write "d/x" ∈ (fcopy "s" "d/x" { name := "x" } { } { }).2 ∧
    (fcopy "s" "d/x" { name := "x" } { } { }).2.indexOf (Ev.chmod "d/x") <
      (fcopy "s" "d/x" { name := "x" } { } { }).2.indexOf (Ev.write "d/x") ∧
    Ev.chmod "d/x" ∉
      (fcopy "s" "d/x" { name := "x" } { openErr := some eIO } { }).2 := by
  decide

/-- Claim C3 as amended: in the single-file copier the finalize action is
applied immediately after a successful permission-control call - before
the content is written - and exactly once on every exit path that reaches
that call; paths failing before it never apply the action. -/
theorem c3_amended (src dest : String) (info : FileInfo) (env : EntryEnv)
    (opt : Options) (chmodfn : ChmodFn) (h1 : env.openErr = none)
    (h2 : env.mkdirErr = none) (h3 : env.createErr = none)
    (h4 : opt.PermissionControl info dest = Except.ok chmodfn) :
    (fcopy src dest info env opt).2.take 5 =
      [Ev.openSrc src, Ev.mkdirAll (dirname dest), Ev.create dest,
        Ev.permCtl dest, Ev.chmod dest] ∧
    (fcopy src dest info env opt).2.count (Ev.chmod dest) = 1 ∧
    Ev.write dest ∈ (fcopy src dest info env opt).2 ∧
    Ev.write dest ∉ (fcopy src dest info env opt).2.take 5 := by
  simp only [fcopy, h1, h2, h3, h4]
  cases hco : env.copyErr <;> cases hs : opt.Sync <;>
    cases hw : opt.WrapReader <;> cases hpo : opt.PreserveOwner <;>
    cases hpt : opt.PreserveTimes <;> cases hoe : env.ownerErr <;>
    cases hte : env.timesErr <;>
    simp_all [List.count_cons, List.count_append, fclose]

/-- Witness for C3 (amended) on a concrete all-success copy. -/
theorem c3_witness :
    (fcopy "s" "d/x" { name := "x" } { } { }).2.take 5 =
      [Ev.openSrc "s", Ev.mkdirAll (dirname "d/x"), Ev.create "d/x",
        Ev.permCtl "d/x", Ev.chmod "d/x"] ∧
    (fcopy "s" "d/x" { name := "x" } { } { }).2.count (Ev.chmod "d/x") = 1 ∧
    Ev.write "d/x" ∈ (fcopy "s" "d/x" { name := "x" } { } { }).2 ∧
    Ev.write "d/x" ∉ (fcopy "s" "d/x" { name := "x" } { } { }).2.take 5 :=
  c3_amended "s" "d/x" { name := "x" } { } { } (fun e => e) rfl rfl rfl rfl

/-- Counterexample to claim C4: one single failure (a child file whose
open fails inside a directory) passes through the pass-through error hook
twice - once at the child where it originates and once more at the parent
directory's dispatch - contradicting "exactly once, at the entry where it
originates". -/
theorem c4_counterexample :
    ((Copy "s" "d" (dirWithBadChild eIO) none idErrHookOpts).2.count
      (Ev.onErrHook "s/f" "d/f") = 1) ∧
    ((Copy "s" "d" (dirWithBadChild eIO) none idErrHookOpts).2.count
      (Ev.onErrHook "s" "d") = 1) ∧
    (Copy "s" "d" (dirWithBadChild eIO) none idErrHookOpts).1 =
      some eIO := by
  have h : Copy "s" "d" (dirWithBadChild eIO) none idErrHookOpts =
      (some eIO, [Ev.statSrc "s", Ev.statDest "d", Ev.permCtl "d",
        Ev.readDir "s", Ev.openSrc "s/f", Ev.onErrHook "s/f" "d/f",
        Ev.chmod "d", Ev.onErrHook "s" "d"]) := by
    simp [Copy, switchboard, dcopy, dcopyBody, dcopyChildren, dcopySequential,
      copyNextOrSkip, fcopy, onError, onDirExists,
      shouldCopyDirectoryConcurrent, dirWithBadChild, badFile, idErrHookOpts,
      Node.info, Node.env, Node.children, pjoin,
      show eIO.notExist = false from rfl]
  rw [h]
  decide

/-- Claim C4 as amended: a failure produced by an entry's handler passes
through the error hook at the entry where it originates, and an
un-suppressed error then passes through the hook once more at each
enclosing directory it propagates out of; a failure of the skip-decision
hook itself is the exception - it reaches the caller with no hook pass at
its own entry and is funneled only at the enclosing directory.  With no
hook configured errors propagate verbatim; a hook returning nil suppresses
the error and the remaining siblings are processed (Sequential mode). -/
theorem c4_amended :
    (∀ (src dest : String) (e : Option GoErr) (opt : Options),
      opt.OnError = none → onError src dest e opt = (e, [])) ∧
    (∀ (src dest : String) (info : FileInfo) (env : EntryEnv)
        (children : List Node) (target : Option Node) (opt : Options)
        (f : String → String → Option GoErr → Option GoErr) (e : GoErr),
      info.device = false → info.symlink = false → info.dir = false →
      info.pipe = false → opt.OnError = some f →
      (fcopy src dest info env opt).1 = some e →
      switchboard src dest (Node.node info env children target) opt =
        (f src dest (some e),
          (fcopy src dest info env opt).2 ++ [Ev.onErrHook src dest])) ∧
    (∀ (src dest : String) (n : Node) (opt : Options)
        (fk : FileInfo → String → String → Bool × Option GoErr) (e : GoErr),
      opt.Skip = some fk → (fk n.info src dest).2 = some e →
      copyNextOrSkip src dest n opt = (some e, [Ev.skipHook src])) ∧
    (∀ (srcdir destdir : String) (info : FileInfo) (env : EntryEnv)
        (children : List Node) (opt : Options)
        (f : String → String → Option GoErr → Option GoErr) (e : GoErr),
      info.device = false → info.symlink = false → info.dir = true →
      opt.OnError = some f → env.destStat = StatRes.notExists →
      opt.PermissionControl info destdir = Except.ok (fun x => x) →
      opt.FS = false → env.readDirErr = none → opt.NumOfWorkers ≤ 1 →
      (dcopySequential srcdir destdir children opt).1 = some e →
      switchboard srcdir destdir (Node.node info env children none) opt =
        (f srcdir destdir (some e),
          Ev.statDest destdir :: Ev.permCtl destdir :: Ev.readDir srcdir ::
            ((dcopySequential srcdir destdir children opt).2 ++
              [Ev.chmod destdir, Ev.onErrHook srcdir destdir]))) ∧
    (∀ (srcdir destdir : String) (c : Node) (cs : List Node) (opt : Options),
      (copyNextOrSkip (pjoin srcdir c.info.name) (pjoin destdir c.info.name)
        c opt).1 = none →
      dcopySequential srcdir destdir (c :: cs) opt =
        ((dcopySequential srcdir destdir cs opt).1,
          (copyNextOrSkip (pjoin srcdir c.info.name)
            (pjoin destdir c.info.name) c opt).2 ++
            (dcopySequential srcdir destdir cs opt).2)) := by
  refine ⟨fun src dest e opt h => by simp [onError, h],
    fun src dest info env children target opt f e hdev hsym hdir hpipe hoe
      hfc => ?_,
    fun src dest n opt fk e hs hp2 => ?_,
    fun srcdir destdir info env children opt f e hdev hsym hdir hoe hst hpc
      hfs hrd hnw hse => ?_,
    fun srcdir destdir c cs opt hnone => ?_⟩
  · simp [switchboard, Node.info, Node.env, hdev, hsym, hdir, hpipe, onError,
      hoe, hfc]
  · rcases hp : fk n.info src dest with ⟨b, e2⟩
    rw [hp] at hp2
    dsimp at hp2
    subst hp2
    simp [copyNextOrSkip, hs, hp]
  · have hcc : shouldCopyDirectoryConcurrent opt srcdir destdir =
        (false, none) := by
      simp [shouldCopyDirectoryConcurrent]
      omega
    simp [switchboard, Node.info, Node.env, dcopy, onDirExists, dcopyBody,
      dcopyChildren, hcc, hdev, hsym, hdir, hoe, hst, hpc, hfs, hrd, hse,
      onError]
  · simp [dcopySequential, hnone]

/-- Witness for C4 (amended): verbatim propagation with no hook, the
origin pass through a transforming hook on a failing file, a skip-hook
failure returned with no hook pass at its own entry, the extra pass at an
enclosing directory for an arbitrary failing child list instantiated
concretely, and sibling continuation after a suppressed child. -/
theorem c4_witness :
    onError "s" "d" (some eIO) { } = (some eIO, []) ∧
    switchboard "f1" "f2"
        (Node.node { name := "f" } { openErr := some eIO } [] none)
        idErrHookOpts =
      (some eIO, [Ev.openSrc "f1", Ev.onErrHook "f1" "f2"]) ∧
    copyNextOrSkip "s" "d" plainFile failSkipOpts =
      (some eIO, [Ev.skipHook "s"]) ∧
    switchboard "s" "d"
        (Node.node { name := "s", dir := true } { } [badFile eIO] none)
        idErrHookOpts =
      (some eIO,
        Ev.statDest "d" :: Ev.permCtl "d" :: Ev.readDir "s" ::
          ((dcopySequential "s" "d" [badFile eIO] idErrHookOpts).2 ++
            [Ev.chmod "d", Ev.onErrHook "s" "d"])) ∧
    dcopySequential "s" "d" [plainFile] skipAllOpts =
      ((dcopySequential "s" "d" [] skipAllOpts).1,
        (copyNextOrSkip (pjoin "s" "f") (pjoin "d" "f") plainFile
          skipAllOpts).2 ++
          (dcopySequential "s" "d" [] skipAllOpts).2) :=
  ⟨c4_amended.1 "s" "d" (some eIO) { } rfl,
   c4_amended.2.1 "f1" "f2" { name := "f" } { openErr := some eIO } []
     none idErrHookOpts _ eIO rfl rfl rfl rfl rfl rfl,
   c4_amended.2.2.1 "s" "d" plainFile failSkipOpts _ eIO rfl rfl,
   c4_amended.2.2.2.1 "s" "d" { name := "s", dir := true } { }
     [badFile eIO] idErrHookOpts _ eIO rfl rfl rfl rfl rfl rfl rfl rfl
     (by decide)
     (by simp [dcopySequential, copyNextOrSkip, switchboard, fcopy, onError,
       badFile, idErrHookOpts, Node.info, Node.env,
       show eIO.notExist = false from rfl]),
   c4_amended.2.2.2.2 "s" "d" plainFile [] skipAllOpts
     (by simp [copyNextOrSkip, skipAllOpts, plainFile, Node.info])⟩

/-! ## Limiter lemmas (claim C9) -/

/-- Unfolding `proj` over a cons cell. -/
theorem proj_cons (t : Nat) (a : Nat × SemEv) (s : List (Nat × SemEv)) :
    proj t (a :: s) = if a.1 = t then a.2 :: proj t s else proj t s := by
  by_cases h : a.1 = t
  · simp [proj, List.filter_cons, h]
  · simp [proj, List.filter_cons, h]

/-- `proj` distributes over append. -/
theorem proj_append (t : Nat) (p r : List (Nat × SemEv)) :
    proj t (p ++ r) = proj t p ++ proj t r := by
  simp [proj, List.filter_append]

/-- A schedule prefix projects to a prefix of each task's trace. -/
theorem projPre (t : Nat) {p s : List (Nat × SemEv)} (h : p <+: s) :
    proj t p <+: proj t s := by
  rcases h with ⟨r, rfl⟩
  exact ⟨proj t r, (proj_append t p r).symm⟩

/-- `take` yields a schedule prefix. -/
theorem takePre (s : List (Nat × SemEv)) (k : Nat) : s.take k <+: s :=
  ⟨s.drop k, List.take_append_drop k s⟩

/-- Unfolding `countEv` over a cons cell. -/
theorem countEv_cons (e : SemEv) (a : Nat × SemEv) (s : List (Nat × SemEv)) :
    countEv e (a :: s) = countEv e s + (if a.2 = e then 1 else 0) := by
  simp [countEv, List.countP_cons]

/-- A task absent from a schedule projects to the empty trace. -/
theorem proj_nil_of_not_mem (t : Nat) (s : List (Nat × SemEv))
    (h : t ∉ s.map Prod.fst) : proj t s = [] := by
  induction s with
  | nil => rfl
  | cons a s ih =>
    simp only [List.map_cons, List.mem_cons, not_or] at h
    rw [proj_cons, if_neg (fun hh => h.1 hh.symm), ih h.2]

/-- A schedule's event count is the sum of its tasks' event counts. -/
theorem countEv_eq_sum (e : SemEv) (s : List (Nat × SemEv)) :
    countEv e s = ∑ t in (s.map Prod.fst).toFinset, (proj t s).count e := by
  induction s with
  | nil => simp [countEv]
  | cons a s ih =>
    rcases a with ⟨u, ev⟩
    rw [countEv_cons, ih]
    simp only [List.map_cons, List.toFinset_cons]
    by_cases hu : u ∈ (s.map Prod.fst).toFinset
    · have hne : ∀ t ∈ ((s.map Prod.fst).toFinset).erase u,
          (proj t ((u, ev) :: s)).count e = (proj t s).count e := by
        intro t ht
        rw [proj_cons, if_neg (Finset.mem_erase.mp ht).1.symm]
      rw [Finset.insert_eq_self.mpr hu]
      rw [← Finset.add_sum_erase _ (fun t => (proj t ((u, ev) :: s)).count e) hu]
      rw [← Finset.add_sum_erase _ (fun t => (proj t s).count e) hu]
      rw [Finset.sum_congr rfl hne]
      rw [proj_cons, if_pos rfl, List.count_cons]
      dsimp only
      simp only [beq_iff_eq]
      omega
    · have hne : ∀ t ∈ (s.map Prod.fst).toFinset,
          (proj t ((u, ev) :: s)).count e = (proj t s).count e := by
        intro t ht
        rw [proj_cons,
          if_neg (fun hh => hu (by rw [show u = t from hh] at hu ⊢; exact ht))]
      rw [Finset.sum_insert hu, Finset.sum_congr rfl hne]
      rw [proj_cons, if_pos rfl, proj_nil_of_not_mem u s (by simpa using hu),
        List.count_cons]
      dsimp only
      simp only [beq_iff_eq, List.count_nil]
      omega

/-- Per task: along any prefix of the leaf routine, starts plus releases
never exceed ends plus acquires - a running copy always holds a slot. -/
theorem task_counts {π : List SemEv} (h : π <+: leafTrace) :
    π.count SemEv.cpStart + π.count SemEv.rel ≤
      π.count SemEv.cpEnd + π.count SemEv.acq := by
  have hl : leafTrace = [SemEv.acq, SemEv.cpStart, SemEv.cpEnd, SemEv.rel] := by
    simp [leafTrace, getRoutineTrace, copyWork]
  rw [hl] at h
  have hlen : π.length ≤ 4 := by
    have := h.length_le
    simpa using this
  have hπ : π = [SemEv.acq, SemEv.cpStart, SemEv.cpEnd, SemEv.rel].take π.length :=
    List.prefix_iff_eq_take.mp h
  set n := π.length with hn
  rw [hπ]
  interval_cases n <;> decide

/-- Summing `task_counts` over the tasks of a schedule. -/
theorem sched_start_rel_le {s : List (Nat × SemEv)} (h : ProgOrder s) :
    countEv SemEv.cpStart s + countEv SemEv.rel s ≤
      countEv SemEv.cpEnd s + countEv SemEv.acq s := by
  rw [countEv_eq_sum, countEv_eq_sum, countEv_eq_sum, countEv_eq_sum]
  rw [← Finset.sum_add_distrib, ← Finset.sum_add_distrib]
  exact Finset.sum_le_sum (fun t _ => task_counts (h t))

/-- Claim C9: in the concurrent child loop a non-directory child's routine
acquires one limiter slot before the copy and releases it unconditionally
afterward, a directory child's recursion adds no semaphore interaction of
its own, and consequently, in any schedule whose tasks follow the leaf
routine and that respects the weighted semaphore's admission bound
(capacity = worker count), the number of byte-copy operations in flight
(`cpStart`s minus `cpEnd`s) never exceeds the capacity at any point. -/
theorem c9_limiter_bound :
    (∀ w, getRoutineTrace true true w = w) ∧
    (∀ w, getRoutineTrace false true w = SemEv.acq :: w ++ [SemEv.rel]) ∧
    (∀ (cap : Nat) (s : List (Nat × SemEv)), ProgOrder s → SemValid cap s →
      ∀ k, countEv SemEv.cpStart (s.take k) ≤
        countEv SemEv.cpEnd (s.take k) + cap) := by
  refine ⟨fun w => by simp [getRoutineTrace],
    fun w => by simp [getRoutineTrace], fun cap s hp hv k => ?_⟩
  have hp2 : ProgOrder (s.take k) :=
    fun t => (projPre t (takePre s k)).trans (hp t)
  have h1 := sched_start_rel_le hp2
  have h2 := hv k
  omega

/-- The sample schedule's tasks follow the leaf routine. -/
theorem demo_progOrder : ProgOrder demoSched := by
  intro t
  by_cases h0 : t = 0
  · subst h0
    decide
  · by_cases h1 : t = 1
    · subst h1
      decide
    · rw [proj_nil_of_not_mem t demoSched (by simp [demoSched, h0, h1])]
      exact ⟨leafTrace, rfl⟩

/-- The sample schedule respects a capacity-1 semaphore. -/
theorem demo_semValid : SemValid 1 demoSched := by
  intro k
  rcases le_or_lt k 8 with h | h
  · interval_cases k <;> decide
  · have h8 : demoSched.length ≤ k := by
      simp only [demoSched, List.length_cons, List.length_nil]
      omega
    rw [List.take_of_length_le h8]
    decide

/-- Witness for C9: both routine shapes and the in-flight bound on a
concrete prefix of the sample schedule. -/
theorem c9_witness :
    getRoutineTrace true true copyWork = copyWork ∧
    getRoutineTrace false true copyWork =
      SemEv.acq :: copyWork ++ [SemEv.rel] ∧
    countEv SemEv.cpStart (demoSched.take 3) ≤
      countEv SemEv.cpEnd (demoSched.take 3) + 1 :=
  ⟨c9_limiter_bound.1 copyWork, c9_limiter_bound.2.1 copyWork,
   c9_limiter_bound.2.2 1 demoSched demo_progOrder demo_semValid 3⟩
